import Mathlib

/-!
Verification of the HTTP bridge of `mcp-server-qdrant`.

Shallow embedding of `src/mcp_server_qdrant/http_app.py` and
`src/mcp_server_qdrant/embeddings/openai_provider.py`.

Conventions of the embedding:
* Python strings are Lean `String`s; the Python operators `in` (substring),
  `startswith`, slicing, `lower()` are modelled by the `py*` helpers below,
  defined by recursion on the character list (Python `lower()` on the ASCII
  header tokens involved agrees with `Char.toLower`).
* Python `None`-able values are `Option`s; Python truthiness of an optional
  string (`if not x`) is `truthyOpt` (false for `None` and for `""`).
* Raised exceptions are `Except.error` carrying the exception message;
  an uncaught exception escaping a handler is the `RpcOutcome.raised`
  constructor.
* JSON values are the inductive `JVal`.
* A Python metadata mapping is modelled by its `str()` rendering (the only
  way the bridge observes it); `None` metadata rendered through
  `entry.metadata or {}` becomes the rendering of the empty dict.
-/

/-- Models Python `needle == hay[:len(needle)]`, i.e. list prefix test. -/
def listIsPfxOf : List Char → List Char → Bool
  | [], _ => true
  | _ :: _, [] => false
  | a :: as, b :: bs => a == b && listIsPfxOf as bs

/-- Models Python substring containment `needle in hay` on character lists. -/
def listContains (needle : List Char) : List Char → Bool
  | [] => listIsPfxOf needle []
  | c :: rest => listIsPfxOf needle (c :: rest) || listContains needle rest

/-- Python `needle in hay` for strings. -/
def pyIn (needle hay : String) : Bool :=
  listContains needle.toList hay.toList

/-- Python `s.startswith(pfx)`. -/
def pyStarts (pfx s : String) : Bool :=
  listIsPfxOf pfx.toList s.toList

/-- Python `s[n:]` for a nonnegative `n`. -/
def pyDrop (n : Nat) (s : String) : String :=
  String.mk (s.toList.drop n)

/-- Python `s.lower()` (ASCII). -/
def pyLower (s : String) : String :=
  String.mk (s.toList.map Char.toLower)

/-- The characters before and after the first occurrence of `.`,
modelling Python `s.split(".", 1)` when `"." in s` holds. -/
def splitFirstDot : List Char → List Char × List Char
  | [] => ([], [])
  | c :: rest =>
    if c == '.' then ([], rest)
    else
      let p := splitFirstDot rest
      (c :: p.1, p.2)

/-- The alias namespace set of `_resolve_tool_name`. -/
def aliasSet : List String := ["qdrant", "qdrant-rag", "qdrant-rag-mcp"]

/-- Embedding of `_resolve_tool_name` (http_app.py lines 41-51).
`none` models a missing (`None`) name; `Except.error` models the raised
`ValueError`. -/
def resolve_tool_name : Option String → Except String String
  | none => .error "Missing tool name"
  | some raw =>
    if raw = "" then .error "Missing tool name"
    else if pyIn "." raw then
      let p := splitFirstDot raw.toList
      if aliasSet.contains (String.mk p.1) then .ok (String.mk p.2) else .ok raw
    else if pyStarts "qdrant_" raw then .ok (pyDrop 7 raw)
    else .ok raw

example : resolve_tool_name (some "qdrant.qdrant-store") = .ok "qdrant-store" := rfl
example : resolve_tool_name (some "unknown-ns.foo") = .ok "unknown-ns.foo" := rfl
example : resolve_tool_name (some "qdrant_find") = .ok "find" := rfl
example : resolve_tool_name (some "qdrant.qdrant_foo") = .ok "qdrant_foo" := rfl
example : resolve_tool_name (some "qdrant_foo") = .ok "foo" := rfl

/-- JSON values, as produced by the bridge. -/
inductive JVal where
  | null
  | bool (b : Bool)
  | num (n : Int)
  | str (s : String)
  | arr (xs : List JVal)
  | obj (kvs : List (String × JVal))

/-- The text content block `\x7b"type": "text", "text": s\x7d`. -/
def textBlock (s : String) : JVal :=
  .obj [("type", .str "text"), ("text", .str s)]

example : textBlock "hi" = JVal.obj [("type", .str "text"), ("text", .str "hi")] := rfl

/-- A Python value as `_serialize_content` observes it: whether it has a
`model_dump` attribute (and the JSON that call returns), whether it is a
`dict` (and its fields), and its `str()` rendering.  An object may have
both capabilities; the probing order of the code decides. -/
structure PyVal where
  modelDump : Option JVal
  dictFields : Option (List (String × JVal))
  strRepr : String

/-- How `_serialize_content` renders one item: `model_dump()` result if the
attribute exists, else the dict itself, else a text block from `str(item)`. -/
def serializeOne (v : PyVal) : JVal :=
  match v.modelDump with
  | some d => d
  | none =>
    match v.dictFields with
    | some f => .obj f
    | none => textBlock v.strRepr

/-- The accumulation loop of `_serialize_content` (http_app.py lines 54-63):
start from the empty list and append one block per item. -/
def serializeContentLoop : List PyVal → List JVal → List JVal
  | [], acc => acc
  | item :: rest, acc => serializeContentLoop rest (acc ++ [serializeOne item])

/-- Embedding of `_serialize_content`. -/
def serialize_content (items : List PyVal) : List JVal :=
  serializeContentLoop items []

/-- A Python `str` as a `PyVal`: no `model_dump` attribute, not a `dict`,
`str()` is the identity. -/
def pyStrVal (s : String) : PyVal :=
  { modelDump := none, dictFields := none, strRepr := s }

/-- A stored entry (`Entry(content=..., metadata=...)` from qdrant.py);
metadata is modelled by the `str()` rendering of the mapping, `none` for
Python `None`. -/
structure Entry where
  content : String
  metadata : Option String
deriving DecidableEq

/-- Effects against the vector-store collaborator performed by
`_call_tool_direct`, in order of execution. -/
inductive ToolEffect where
  | stored (e : Entry) (collection : String)
  | searched (query : String) (collection : String)
deriving DecidableEq

/-- The `arguments` mapping of a `tools/call` request, as read by
`arguments.get(...)`; `query_filter` is the filter mapping kept opaque. -/
structure Args where
  information : Option String
  metadata : Option String
  collection_name : Option String
  query : Option String
  query_filter : Option String
deriving DecidableEq

/-- The empty arguments dict. -/
def Args.empty : Args :=
  { information := none, metadata := none, collection_name := none,
    query := none, query_filter := none }

/-- Python truthiness of an optional string: `None` and `""` are falsy. -/
def truthyOpt : Option String → Bool
  | none => false
  | some s => !(s == "")

/-- Python `a or b` on optional strings (used for
`collection_name or mcp.qdrant_settings.collection_name`). -/
def pyOrOpt (a b : Option String) : Option String :=
  if truthyOpt a then a else b

/-- The process-wide collaborators reached through the `mcp` singleton, and
the behaviour of the external vector store on this request.  `Except.error`
in a collaborator result models an exception raised by the awaited call. -/
structure Env where
  serverName : String
  defaultCollection : Option String
  searchLimit : Nat
  toolsPayload : List JVal
  mkFilter : String → Except String String
  storeResult : Entry → String → Except String Unit
  searchResult : String → String → Except String (List Entry)

/-- The rendering of one found entry in `_call_tool_direct`
(`<entry><content>...</content><metadata>...</metadata></entry>`);
`entry.metadata or \x7b\x7d` renders `None` as the empty dict. -/
def renderEntry (e : Entry) : String :=
  "<entry><content>" ++ e.content ++ "</content><metadata>" ++
    (e.metadata.getD "\x7b\x7d") ++ "</metadata></entry>"

/-- Embedding of `_call_tool_direct` (http_app.py lines 166-211): the list
of collaborator invocations it performs, and either the raised exception's
message or the returned list of strings. -/
def call_tool_direct (env : Env) (name : String) (args : Args) :
    List ToolEffect × Except String (List String) :=
  if name = "qdrant-store" then
    if !truthyOpt args.information then ([], .error "information is required")
    else
      let information := args.information.getD ""
      let collection? := pyOrOpt args.collection_name env.defaultCollection
      if !truthyOpt collection? then
        ([], .error "collection_name is required when no default is set")
      else
        let collection := collection?.getD ""
        let entry : Entry := { content := information, metadata := args.metadata }
        match env.storeResult entry collection with
        | .error msg => ([.stored entry collection], .error msg)
        | .ok _ =>
          ([.stored entry collection],
           .ok ["Remembered: " ++ information ++ " in collection " ++ collection])
  else if name = "qdrant-find" then
    if !truthyOpt args.query then ([], .error "query is required")
    else
      let query := args.query.getD ""
      let collection? := pyOrOpt args.collection_name env.defaultCollection
      if !truthyOpt collection? then
        ([], .error "collection_name is required when no default is set")
      else
        let collection := collection?.getD ""
        let filterStep : Except String (Option String) :=
          match args.query_filter with
          | none => .ok none
          | some qf => if qf = "" then .ok none else (env.mkFilter qf).map some
        match filterStep with
        | .error msg => ([], .error msg)
        | .ok _ =>
          match env.searchResult query collection with
          | .error msg => ([.searched query collection], .error msg)
          | .ok entries =>
            if entries.isEmpty then
              ([.searched query collection], .ok ["No matching entries."])
            else
              ([.searched query collection],
               .ok (("Results for the query \x27" ++ query ++ "\x27") ::
                    entries.map renderEntry))
  else ([], .error ("Unknown tool: " ++ name))

/-- The `params` mapping of a JSON-RPC request body. -/
structure RpcParams where
  name : Option String
  arguments : Option Args

/-- The empty params dict. -/
def RpcParams.empty : RpcParams :=
  { name := none, arguments := none }

/-- A JSON-RPC response as built by `_jsonrpc_result` / `_jsonrpc_error`. -/
inductive JsonRpcResponse where
  | ok (id : JVal) (result : JVal)
  | err (id : JVal) (code : Int) (message : String)

/-- What `_handle_jsonrpc` does with a parsed body: return a response, or
let an exception escape to the HTTP layer. -/
inductive RpcOutcome where
  | response (r : JsonRpcResponse)
  | raised (msg : String)

/-- A parsed JSON-RPC request body, as read by `payload.get(...)`. -/
structure Payload where
  method : Option String
  id : JVal
  params : Option RpcParams

/-- Embedding of the `tools/call` branch of `_handle_jsonrpc`
(http_app.py lines 89-100).  Note: `_resolve_tool_name` runs OUTSIDE the
`try` block, so its `ValueError` is raised, not wrapped. -/
def handleToolsCall (env : Env) (params : Option RpcParams) (idv : JVal) :
    List ToolEffect × RpcOutcome :=
  let p := params.getD RpcParams.empty
  match resolve_tool_name p.name with
  | .error msg => ([], .raised msg)
  | .ok name =>
    let args := p.arguments.getD Args.empty
    match call_tool_direct env name args with
    | (effs, .error msg) => (effs, .response (.err idv (-32000) msg))
    | (effs, .ok blocks) =>
      (effs, .response (.ok idv (.obj
        [("content", .arr (serialize_content (blocks.map pyStrVal)))])))

/-- Embedding of `_handle_jsonrpc` (http_app.py lines 66-105) after the
body has parsed as JSON (a parse failure short-circuits into an HTTP 400
before this dispatch). -/
def handle_jsonrpc (env : Env) (payload : Payload) :
    List ToolEffect × RpcOutcome :=
  if payload.method = some "initialize" then
    ([], .response (.ok payload.id (.obj
      [("protocolVersion", .str "0.1"),
       ("serverInfo", .obj [("name", .str env.serverName), ("version", .str "0.1.0")]),
       ("capabilities", .obj [("tools", .obj [("listChanged", .bool true)])])])))
  else if payload.method = some "tools/list" then
    ([], .response (.ok payload.id (.obj [("tools", .arr env.toolsPayload)])))
  else if payload.method = some "tools/list_changed" then
    ([], .response (.ok payload.id (.obj [])))
  else if payload.method = some "tools/call" then
    handleToolsCall env payload.params payload.id
  else if payload.method = some "ping" then
    ([], .response (.ok payload.id (.obj [("status", .str "ok")])))
  else
    ([], .response (.err payload.id (-32601)
      ("Method not implemented: " ++ (payload.method.getD "None"))))

/-- An inbound ASGI request as the router sees it: scope type, method and
path from the scope, `accept` and `content-type` header values (the empty
string when the header is absent, matching `headers.get(..., "")`). -/
structure HttpRequest where
  scopeType : String
  method : String
  path : String
  accept : String
  contentType : String

/-- Embedding of `_should_use_jsonrpc` (http_app.py lines 108-115). -/
def should_use_jsonrpc (r : HttpRequest) : Bool :=
  if r.method ≠ "POST" then false
  else if pyIn "application/json-seq" r.accept || pyIn "text/event-stream" r.accept then
    false
  else pyIn "application/json" (pyLower r.contentType)

/-- Which handler a request ends in. -/
inductive Handler where
  | jsonrpc
  | stream
deriving DecidableEq

/-- Embedding of `HybridMCPApp.__call__` (http_app.py lines 122-136): the
routing decision between the JSON-RPC shim and the streaming app. -/
def routeRequest (r : HttpRequest) : Handler :=
  if r.scopeType ≠ "http" then .stream
  else if pyStarts "/mcp" r.path && should_use_jsonrpc r then .jsonrpc
  else .stream

/-- One item of a batch-embedding response: its `index` attribute when
present (`getattr(item, "index", 0)` defaults to 0) and its embedding
vector, kept as an opaque list of coordinates. -/
structure EmbedItem where
  index : Option Nat
  embedding : List Int
deriving DecidableEq

/-- The sort key `getattr(item, "index", 0)`. -/
def embedKey (it : EmbedItem) : Nat :=
  it.index.getD 0

/-- Comparison by key, the relation `sorted(..., key=lambda item: ...)`
sorts by. -/
def keyLe (a b : EmbedItem) : Prop :=
  embedKey a ≤ embedKey b

/-- Strict comparison by key. -/
def keyLt (a b : EmbedItem) : Prop :=
  embedKey a < embedKey b

instance : DecidableRel keyLe :=
  fun a b => inferInstanceAs (Decidable (embedKey a ≤ embedKey b))

instance : IsTotal EmbedItem keyLe :=
  ⟨fun a b => Nat.le_total (embedKey a) (embedKey b)⟩

instance : IsTrans EmbedItem keyLe :=
  ⟨fun _ _ _ => Nat.le_trans⟩

instance : IsAntisymm EmbedItem keyLt :=
  ⟨fun a _ h1 h2 => absurd (Nat.lt_trans h1 h2) (Nat.lt_irrefl (embedKey a))⟩

/-- Python `sorted(response.data, key=lambda item: getattr(item, "index", 0))`:
a stable sort by the key; insertion sort is stable, matching `sorted`. -/
def sortByIndex (l : List EmbedItem) : List EmbedItem :=
  List.insertionSort keyLe l

/-- Embedding of the pure part of `OpenAIEmbeddingProvider.embed_documents`
(openai_provider.py lines 31-37): sort the response data by index, then
extract the embeddings in that order. -/
def embed_documents_extract (data : List EmbedItem) : List (List Int) :=
  (sortByIndex data).map fun it => it.embedding

/-- The spec's description of tool-name resolution (§4.3), stated as its
own function to compare with the code's `_resolve_tool_name`: split on the
first `.` and unwrap known-alias namespaces, else strip the literal
`qdrant_` prefix token, else identity. -/
def resolveSpecRule (raw : String) : String :=
  if pyIn "." raw then
    let p := splitFirstDot raw.toList
    if aliasSet.contains (String.mk p.1) then String.mk p.2 else raw
  else if pyStarts "qdrant_" raw then pyDrop 7 raw
  else raw

/-- A sample environment: default collection `memories`, store succeeds,
search finds nothing. -/
def envW : Env :=
  { serverName := "mcp-server-qdrant"
    defaultCollection := some "memories"
    searchLimit := 10
    toolsPayload := []
    mkFilter := fun s => .ok s
    storeResult := fun _ _ => .ok ()
    searchResult := fun _ _ => .ok [] }

/-- A sample environment whose search returns one entry. -/
def envFindW : Env :=
  { envW with searchResult := fun _ _ => .ok [{ content := "c", metadata := none }] }

/-- The accumulator of `serializeContentLoop` is only appended to. -/
theorem serializeContentLoop_eq (items : List PyVal) (acc : List JVal) :
    serializeContentLoop items acc = acc ++ items.map serializeOne := by
  induction items generalizing acc with
  | nil => simp [serializeContentLoop]
  | cons a t ih => simp [serializeContentLoop, ih]

/-- Serializing a list of Python strings yields exactly text blocks. -/
theorem serialize_content_strings (blocks : List String) :
    serialize_content (blocks.map pyStrVal) = blocks.map textBlock := by
  rw [serialize_content, serializeContentLoop_eq, List.nil_append, List.map_map]
  rfl

/-- Pairwise key-nonstrict order plus pairwise distinct keys give pairwise
strict key order. -/
theorem pairwise_keyLt {l : List EmbedItem}
    (hle : l.Pairwise keyLe)
    (hne : l.Pairwise fun a b => embedKey a ≠ embedKey b) :
    l.Pairwise keyLt := by
  induction l with
  | nil => exact List.Pairwise.nil
  | cons a t ih =>
    cases hle with
    | cons h1 t1 =>
      cases hne with
      | cons h2 t2 =>
        exact List.Pairwise.cons
          (fun b hb => Nat.lt_of_le_of_ne (h1 b hb) (h2 b hb)) (ih t1 t2)

/-- Sorting by index is invariant under permutation of the input when the
keys are pairwise distinct. -/
theorem sortByIndex_perm_eq {l₁ l₂ : List EmbedItem}
    (hp : l₁.Perm l₂) (hnd : (l₂.map embedKey).Nodup) :
    sortByIndex l₁ = sortByIndex l₂ := by
  have hperm : (sortByIndex l₁).Perm (sortByIndex l₂) :=
    ((List.perm_insertionSort keyLe l₁).trans hp).trans
      (List.perm_insertionSort keyLe l₂).symm
  have hs₁ : (sortByIndex l₁).Sorted keyLe := List.sorted_insertionSort keyLe l₁
  have hs₂ : (sortByIndex l₂).Sorted keyLe := List.sorted_insertionSort keyLe l₂
  have hnd₁ : ((sortByIndex l₁).map embedKey).Nodup :=
    ((((List.perm_insertionSort keyLe l₁).trans hp).map embedKey).nodup_iff).mpr hnd
  have hnd₂ : ((sortByIndex l₂).map embedKey).Nodup :=
    (((List.perm_insertionSort keyLe l₂).map embedKey).nodup_iff).mpr hnd
  have hlt₁ : (sortByIndex l₁).Pairwise keyLt :=
    pairwise_keyLt hs₁ (List.pairwise_map.mp hnd₁)
  have hlt₂ : (sortByIndex l₂).Pairwise keyLt :=
    pairwise_keyLt hs₂ (List.pairwise_map.mp hnd₂)
  exact List.eq_of_perm_of_sorted hperm hlt₁ hlt₂

/-- C2 counterexample: resolution is not idempotent.  For the raw name
`qdrant.qdrant_foo` the first resolution unwraps the alias namespace and
yields `qdrant_foo`, but resolving that again strips the `qdrant_` prefix
and yields `foo`, so `resolve (resolve x)` differs from `resolve x`. -/
theorem resolve_not_idempotent :
    resolve_tool_name (some "qdrant.qdrant_foo") = .ok "qdrant_foo" ∧
    resolve_tool_name (some "qdrant_foo") = .ok "foo" ∧
    ("foo" : String) ≠ "qdrant_foo" :=
  ⟨rfl, rfl, by decide⟩

/-- C2 (amended): resolution is idempotent on every name whose resolved
form is canonical, i.e. contains no `.` and does not start with the
`qdrant_` prefix: resolving such a result again returns it unchanged. -/
theorem resolve_idempotent_on_canonical (raw r : String)
    (_hres : resolve_tool_name (some raw) = .ok r)
    (hne : r ≠ "") (hdot : pyIn "." r = false)
    (hpfx : pyStarts "qdrant_" r = false) :
    resolve_tool_name (some r) = .ok r := by
  simp [resolve_tool_name, hne, hdot, hpfx]

theorem resolve_idempotent_on_canonical_witness :
    resolve_tool_name (some "qdrant.qdrant-find") = .ok "qdrant-find" ∧
    resolve_tool_name (some "qdrant-find") = .ok "qdrant-find" :=
  ⟨rfl, resolve_idempotent_on_canonical "qdrant.qdrant-find" "qdrant-find" rfl
    (by decide) (by decide) (by decide)⟩

/-- C3: for every non-empty raw name, `_resolve_tool_name` follows exactly
the spec's resolution rule (alias-namespace unwrapping on the first `.`,
else literal-prefix stripping, else identity); in particular
`qdrant.qdrant-store` resolves to `qdrant-store`, `unknown-ns.foo` stays
unchanged, and every name without `.` and without the prefix is fixed. -/
theorem resolve_follows_spec_rule :
    (∀ raw : String, raw ≠ "" →
      resolve_tool_name (some raw) = .ok (resolveSpecRule raw)) ∧
    resolve_tool_name (some "qdrant.qdrant-store") = .ok "qdrant-store" ∧
    resolve_tool_name (some "unknown-ns.foo") = .ok "unknown-ns.foo" ∧
    (∀ raw : String, raw ≠ "" → pyIn "." raw = false →
      pyStarts "qdrant_" raw = false → resolve_tool_name (some raw) = .ok raw) := by
  refine ⟨?_, rfl, rfl, ?_⟩
  · intro raw h
    simp only [resolve_tool_name, resolveSpecRule, if_neg h]
    cases hc : pyIn "." raw with
    | true =>
      cases ha : aliasSet.contains (String.mk (splitFirstDot raw.toList).1) with
      | true => simp [hc, ha]
      | false => simp [hc, ha]
    | false =>
      cases hs : pyStarts "qdrant_" raw with
      | true => simp [hc, hs]
      | false => simp [hc, hs]
  · intro raw h h1 h2
    simp [resolve_tool_name, h, h1, h2]

theorem resolve_follows_spec_rule_witness :
    (("store" : String) ≠ "" ∧
      resolve_tool_name (some "store") = .ok (resolveSpecRule "store")) ∧
    (("plain" : String) ≠ "" ∧ pyIn "." "plain" = false ∧
      pyStarts "qdrant_" "plain" = false ∧
      resolve_tool_name (some "plain") = .ok "plain") :=
  ⟨⟨by decide, resolve_follows_spec_rule.1 "store" (by decide)⟩,
   ⟨by decide, by decide, by decide,
    resolve_follows_spec_rule.2.2.2 "plain" (by decide) (by decide) (by decide)⟩⟩

/-- A sample item exposing `model_dump`. -/
def itemStructW : PyVal :=
  { modelDump := some (JVal.obj [("k", JVal.str "v")])
    dictFields := none
    strRepr := "S" }

/-- A sample plain-dict item. -/
def itemDictW : PyVal :=
  { modelDump := none
    dictFields := some [("a", JVal.num 1)]
    strRepr := "D" }

/-- A sample item with both capabilities. -/
def itemBothW : PyVal :=
  { modelDump := some (JVal.obj [("k", JVal.str "v")])
    dictFields := some [("x", JVal.num 2)]
    strRepr := "S" }

/-- A JSON POST to the mount prefix. -/
def reqJsonW : HttpRequest :=
  { scopeType := "http"
    method := "POST"
    path := "/mcp"
    accept := "application/json"
    contentType := "application/json" }

/-- A JSON POST to the mount prefix asking for an event stream. -/
def reqStreamW : HttpRequest :=
  { scopeType := "http"
    method := "POST"
    path := "/mcp"
    accept := "text/event-stream"
    contentType := "application/json" }

/-- A JSON POST whose `Accept` names the streaming type only in upper
case. -/
def reqCasedW : HttpRequest :=
  { scopeType := "http"
    method := "POST"
    path := "/mcp"
    accept := "TEXT/EVENT-STREAM"
    contentType := "Application/JSON" }

/-- C5: `_serialize_content` is order- and length-preserving — one block
per input item, in input order — and each item resolves by the ordered
rule: `model_dump()` result when the capability exists, else verbatim
mapping for a `dict`, else a text block from `str(item)`. -/
theorem serialize_content_pointwise (items : List PyVal) :
    serialize_content items = items.map serializeOne ∧
    (serialize_content items).length = items.length ∧
    (∀ v : PyVal, ∀ d : JVal, v.modelDump = some d → serializeOne v = d) ∧
    (∀ v : PyVal, ∀ f : List (String × JVal), v.modelDump = none →
      v.dictFields = some f → serializeOne v = JVal.obj f) ∧
    (∀ v : PyVal, v.modelDump = none → v.dictFields = none →
      serializeOne v = textBlock v.strRepr) := by
  refine ⟨?_, ?_, ?_, ?_, ?_⟩
  · rw [serialize_content, serializeContentLoop_eq, List.nil_append]
  · rw [serialize_content, serializeContentLoop_eq, List.nil_append, List.length_map]
  · intro v d h
    simp [serializeOne, h]
  · intro v f h1 h2
    simp [serializeOne, h1, h2]
  · intro v h1 h2
    simp [serializeOne, h1, h2]

theorem serialize_content_pointwise_witness :
    serialize_content [itemStructW, itemDictW, pyStrVal "plain text"] =
      [JVal.obj [("k", JVal.str "v")], JVal.obj [("a", JVal.num 1)],
       textBlock "plain text"] ∧
    serializeOne itemBothW = JVal.obj [("k", JVal.str "v")] := by
  constructor
  · rw [(serialize_content_pointwise _).1]
    rfl
  · exact (serialize_content_pointwise []).2.2.1 itemBothW _ rfl

/-- C4: for every inbound HTTP request the router picks the JSON-RPC shim
iff the method is POST, the path starts with `/mcp`, the `Accept` header
contains neither `application/json-seq` nor `text/event-stream`, and the
lower-cased `Content-Type` contains `application/json`; in particular a
JSON POST to the mount prefix with `Accept: text/event-stream` goes to the
streaming handler. -/
theorem route_selects_jsonrpc_iff :
    (∀ r : HttpRequest, r.scopeType = "http" →
      (routeRequest r = Handler.jsonrpc ↔
        (r.method = "POST" ∧ pyStarts "/mcp" r.path = true ∧
         pyIn "application/json-seq" r.accept = false ∧
         pyIn "text/event-stream" r.accept = false ∧
         pyIn "application/json" (pyLower r.contentType) = true))) ∧
    (∀ r : HttpRequest, r.scopeType = "http" → r.method = "POST" →
      pyStarts "/mcp" r.path = true →
      pyIn "text/event-stream" r.accept = true →
      pyIn "application/json" (pyLower r.contentType) = true →
      routeRequest r = Handler.stream) := by
  have huse : ∀ r : HttpRequest, should_use_jsonrpc r = true ↔
      (r.method = "POST" ∧ pyIn "application/json-seq" r.accept = false ∧
       pyIn "text/event-stream" r.accept = false ∧
       pyIn "application/json" (pyLower r.contentType) = true) := by
    intro r
    unfold should_use_jsonrpc
    split_ifs with hm ha
    · simp [hm]
    · have hm' := not_not.mp hm
      simp only [Bool.or_eq_true] at ha
      rcases ha with h | h <;> simp [hm', h]
    · have hm' := not_not.mp hm
      simp only [Bool.or_eq_true, not_or, Bool.not_eq_true] at ha
      simp [hm', ha.1, ha.2]
  constructor
  · intro r hs
    unfold routeRequest
    rw [if_neg (by simp [hs])]
    cases hp : pyStarts "/mcp" r.path with
    | true =>
      cases hu : should_use_jsonrpc r with
      | true => simpa [hp] using (huse r).mp hu
      | false =>
        have := (huse r).not.mp (by simp [hu])
        simp only [hp, hu, Bool.and_false, Bool.false_eq_true, if_false]
        constructor
        · intro h
          exact absurd h (by simp)
        · intro h
          exact absurd h (by simpa using this)
    | false =>
      simp only [hp, Bool.false_and, Bool.false_eq_true, if_false]
      constructor
      · intro h
        exact absurd h (by simp)
      · rintro ⟨-, hcontra, -⟩
        exact absurd hcontra (by simp [hp])
  · intro r hs hm hp hes _
    unfold routeRequest should_use_jsonrpc
    rw [if_neg (by simp [hs])]
    simp [hes]

theorem route_selects_jsonrpc_iff_witness :
    routeRequest reqJsonW = Handler.jsonrpc ∧
    routeRequest reqStreamW = Handler.stream :=
  ⟨(route_selects_jsonrpc_iff.1 reqJsonW rfl).mpr
     ⟨rfl, by decide, by decide, by decide, by decide⟩,
   route_selects_jsonrpc_iff.2 reqStreamW rfl rfl (by decide) (by decide)
     (by decide)⟩

/-- C9 (implicit): the `Accept` exclusion is case-sensitive while the
`Content-Type` match is case-insensitive — an `Accept` header containing a
streaming media type only in a different letter casing does not disqualify
a JSON POST to the mount prefix, and the request goes to the JSON-RPC
shim. -/
theorem route_accept_case_sensitive (r : HttpRequest)
    (hs : r.scopeType = "http") (hm : r.method = "POST")
    (hp : pyStarts "/mcp" r.path = true)
    (hct : pyIn "application/json" (pyLower r.contentType) = true)
    (_hcasing : pyIn "text/event-stream" (pyLower r.accept) = true ∨
      pyIn "application/json-seq" (pyLower r.accept) = true)
    (h1 : pyIn "text/event-stream" r.accept = false)
    (h2 : pyIn "application/json-seq" r.accept = false) :
    routeRequest r = Handler.jsonrpc := by
  unfold routeRequest should_use_jsonrpc
  rw [if_neg (by simp [hs])]
  simp [hp, hm, h1, h2, hct]

theorem route_accept_case_sensitive_witness :
    routeRequest reqCasedW = Handler.jsonrpc :=
  route_accept_case_sensitive reqCasedW rfl rfl (by decide) (by decide)
    (Or.inl (by decide)) (by decide) (by decide)


/-- A `tools/call` payload with no params. -/
def payloadNoNameW : Payload :=
  { method := some "tools/call"
    id := JVal.null
    params := none }

/-- A `tools/call` payload for `qdrant-store` with empty arguments. -/
def payloadStoreEmptyW : Payload :=
  { method := some "tools/call"
    id := JVal.num 2
    params := some { name := some "qdrant-store", arguments := none } }

/-- A `tools/call` payload for `qdrant-find` with a query. -/
def payloadFindW : Payload :=
  { method := some "tools/call"
    id := JVal.num 3
    params := some { name := some "qdrant-find"
                     arguments := some { Args.empty with query := some "x" } } }

/-- C1 counterexample: a `tools/call` request whose params carry no tool
name makes `_resolve_tool_name` raise OUTSIDE the `try` block, so the
`ValueError` propagates to the HTTP layer instead of becoming a `-32000`
JSON-RPC error response. -/
theorem tools_call_missing_name_raises :
    handle_jsonrpc envW payloadNoNameW = ([], RpcOutcome.raised "Missing tool name") ∧
    (∀ resp : JsonRpcResponse,
      RpcOutcome.raised "Missing tool name" ≠ RpcOutcome.response resp) :=
  ⟨rfl, fun _ h => RpcOutcome.noConfusion h⟩

/-- C1 (amended): for a `tools/call` request, an exception raised while
invoking the resolved tool (argument validation, unknown tool, downstream
failure) is caught and converted to a `-32000` JSON-RPC error carrying the
exception's message; but a failure of tool-name resolution itself (missing
or empty name) happens outside the `try` block and propagates uncaught. -/
theorem tools_call_exception_handling (env : Env) (payload : Payload)
    (hm : payload.method = some "tools/call") :
    (∀ msg : String,
      resolve_tool_name (payload.params.getD RpcParams.empty).name = .error msg →
      handle_jsonrpc env payload = ([], RpcOutcome.raised msg)) ∧
    (∀ (name : String) (effs : List ToolEffect) (msg : String),
      resolve_tool_name (payload.params.getD RpcParams.empty).name = .ok name →
      call_tool_direct env name
          ((payload.params.getD RpcParams.empty).arguments.getD Args.empty) =
        (effs, .error msg) →
      handle_jsonrpc env payload =
        (effs, RpcOutcome.response (.err payload.id (-32000) msg))) := by
  constructor
  · intro msg hres
    simp only [handle_jsonrpc, hm]
    rw [if_pos trivial]
    simp only [handleToolsCall, hres]
    rw [if_neg (by decide), if_neg (by decide), if_neg (by decide)]
  · intro name effs msg hres hcall
    simp only [handle_jsonrpc, hm]
    rw [if_pos trivial]
    simp only [handleToolsCall, hres, hcall]
    rw [if_neg (by decide), if_neg (by decide), if_neg (by decide)]

theorem tools_call_exception_handling_witness :
    handle_jsonrpc envW
        { method := some "tools/call"
          id := JVal.num 1
          params := some { name := some "", arguments := none } } =
      ([], RpcOutcome.raised "Missing tool name") ∧
    handle_jsonrpc envW payloadStoreEmptyW =
      ([], RpcOutcome.response (.err (JVal.num 2) (-32000) "information is required")) :=
  ⟨(tools_call_exception_handling envW _ rfl).1 "Missing tool name" rfl,
   (tools_call_exception_handling envW _ rfl).2 "qdrant-store" []
     "information is required" rfl rfl⟩

/-- C7: a `tools/call` naming the store tool whose arguments lack a
non-empty `information` performs no collaborator invocation and returns a
`-32000` JSON-RPC error saying `information is required`. -/
theorem store_missing_information (env : Env) (params : RpcParams) (idv : JVal)
    (hname : params.name = some "qdrant-store")
    (hinfo : truthyOpt (params.arguments.getD Args.empty).information = false) :
    handle_jsonrpc env { method := some "tools/call", id := idv, params := some params } =
      ([], RpcOutcome.response (.err idv (-32000) "information is required")) := by
  have hres : resolve_tool_name (some "qdrant-store") = .ok "qdrant-store" := rfl
  have hcall : call_tool_direct env "qdrant-store"
      (params.arguments.getD Args.empty) = ([], .error "information is required") := by
    simp [call_tool_direct, hinfo]
  simp only [handle_jsonrpc]
  rw [if_pos trivial]
  simp only [handleToolsCall, Option.getD_some, hname, hres, hcall]
  rw [if_neg (by decide), if_neg (by decide), if_neg (by decide)]

theorem store_missing_information_witness :
    handle_jsonrpc envW payloadStoreEmptyW =
      ([], RpcOutcome.response (.err (JVal.num 2) (-32000) "information is required")) :=
  store_missing_information envW { name := some "qdrant-store", arguments := none }
    (JVal.num 2) rfl rfl

/-- C6: for the find tool with a valid non-empty query, a resolvable
collection and no filter, zero search results produce exactly the single
text `No matching entries.`, and `n > 0` results produce `1 + n` strings:
a header naming the query followed by one rendered entry per result, in
search order. -/
theorem find_result_blocks (env : Env) (args : Args) (query : String)
    (entries : List Entry)
    (hq : args.query = some query) (hqne : query ≠ "")
    (hcol : truthyOpt (pyOrOpt args.collection_name env.defaultCollection) = true)
    (hfil : args.query_filter = none)
    (hsearch : env.searchResult query
        ((pyOrOpt args.collection_name env.defaultCollection).getD "") = .ok entries) :
    (entries = [] →
      call_tool_direct env "qdrant-find" args =
        ([.searched query ((pyOrOpt args.collection_name env.defaultCollection).getD "")],
         .ok ["No matching entries."])) ∧
    (entries ≠ [] →
      call_tool_direct env "qdrant-find" args =
        ([.searched query ((pyOrOpt args.collection_name env.defaultCollection).getD "")],
         .ok (("Results for the query \x27" ++ query ++ "\x27") ::
              entries.map renderEntry)) ∧
      (("Results for the query \x27" ++ query ++ "\x27") ::
          entries.map renderEntry).length = 1 + entries.length) := by
  have hq2 : truthyOpt (some query) = true := by
    simp [truthyOpt, hqne]
  constructor
  · intro he
    subst he
    simp [call_tool_direct, hq, hq2, hcol, hfil, hsearch]
  · intro he
    refine ⟨?_, by simp [Nat.add_comm]⟩
    have hne : entries.isEmpty = false := by
      cases entries with
      | nil => exact absurd rfl he
      | cons a t => rfl
    simp [call_tool_direct, hq, hq2, hcol, hfil, hsearch, hne]

theorem find_result_blocks_witness :
    call_tool_direct envW "qdrant-find" { Args.empty with query := some "x" } =
      ([.searched "x" "memories"], .ok ["No matching entries."]) ∧
    call_tool_direct envFindW "qdrant-find" { Args.empty with query := some "x" } =
      ([.searched "x" "memories"],
       .ok (("Results for the query \x27" ++ "x" ++ "\x27") ::
            List.map renderEntry [{ content := "c", metadata := none }])) :=
  ⟨(find_result_blocks envW _ "x" [] rfl (by decide) (by decide) rfl rfl).1 rfl,
   ((find_result_blocks envFindW _ "x" [{ content := "c", metadata := none }] rfl
      (by decide) (by decide) rfl rfl).2 (by simp)).1⟩

/-- C8: batch embedding extraction is permutation-invariant in the
provider's response order — for a response whose items carry pairwise
distinct index tags, every permutation of the data items extracts the same
vector sequence as the canonically index-ordered response. -/
theorem embed_order_permutation_invariant (data perm : List EmbedItem)
    (hperm : perm.Perm data) (hnd : (data.map embedKey).Nodup) :
    embed_documents_extract perm = embed_documents_extract (sortByIndex data) := by
  have h1 : sortByIndex perm = sortByIndex data := sortByIndex_perm_eq hperm hnd
  have h2 : sortByIndex (sortByIndex data) = sortByIndex data :=
    sortByIndex_perm_eq (List.perm_insertionSort keyLe data) hnd
  rw [embed_documents_extract, embed_documents_extract, h1, h2]

theorem embed_order_permutation_invariant_witness :
    embed_documents_extract
        [{ index := some 1, embedding := [3] }, { index := some 0, embedding := [7] }] =
      embed_documents_extract (sortByIndex
        [{ index := some 0, embedding := [7] }, { index := some 1, embedding := [3] }]) :=
  embed_order_permutation_invariant
    [{ index := some 0, embedding := [7] }, { index := some 1, embedding := [3] }]
    [{ index := some 1, embedding := [3] }, { index := some 0, embedding := [7] }]
    (by decide) (by decide)

/-- C10 (implicit): every successful `tools/call` response of the JSON-RPC
shim carries only text blocks, because `_call_tool_direct` returns plain
strings and serializing a string always lands in the text fallback. -/
theorem tools_call_content_all_text (env : Env) (payload : Payload)
    (effs : List ToolEffect) (idv : JVal) (res : JVal)
    (hm : payload.method = some "tools/call")
    (hres : handle_jsonrpc env payload = (effs, RpcOutcome.response (.ok idv res))) :
    ∃ blocks : List String,
      res = JVal.obj [("content", JVal.arr (blocks.map textBlock))] := by
  rw [handle_jsonrpc] at hres
  rw [if_neg (by rw [hm]; decide), if_neg (by rw [hm]; decide),
    if_neg (by rw [hm]; decide), if_pos hm] at hres
  rw [handleToolsCall] at hres
  rcases hp : resolve_tool_name (payload.params.getD RpcParams.empty).name with msg | name
  · rw [hp] at hres
    exact absurd (congrArg Prod.snd hres) (by simp)
  · rw [hp] at hres
    rcases hc : call_tool_direct env name
        ((payload.params.getD RpcParams.empty).arguments.getD Args.empty) with ⟨e, r⟩
    cases r with
    | error msg =>
      simp only [hc] at hres
      simp at hres
    | ok blocks =>
      simp only [hc] at hres
      simp only [Prod.mk.injEq, RpcOutcome.response.injEq, JsonRpcResponse.ok.injEq] at hres
      obtain ⟨-, -, h3⟩ := hres
      exact ⟨blocks, by rw [← h3, serialize_content_strings]⟩

theorem tools_call_content_all_text_witness :
    ∃ blocks : List String,
      JVal.obj [("content", JVal.arr [textBlock "No matching entries."])] =
        JVal.obj [("content", JVal.arr (blocks.map textBlock))] :=
  tools_call_content_all_text envW payloadFindW [ToolEffect.searched "x" "memories"]
    (JVal.num 3) (JVal.obj [("content", JVal.arr [textBlock "No matching entries."])])
    rfl rfl
